import Mathlib

/-!
# understanding: the analytics ingestion endpoint of `main.go`

A shallow embedding of `initDB` and `understandingHandler`.

The program calls four things that live outside the repository: the JSON
decoder, `time.Parse`, `time.Now` and the SQLite driver behind
`database/sql`.  Their results are inputs of the embedding (`World`); the
two SQL statements the program issues are given the usual SQL meaning on a
small relational store (`Store.exec`).  Header names follow `net/http`: `Header.Get`
puts the key it is given in canonical form before it reads the request map.
Effects are made explicit: the
response writer, the program state (the global `db` and the database file)
and the ordered list of calls to the logger, the decoder and `db.Exec`.
-/

namespace Understanding

/-! ## Data model -/

/-- The observable content of a Go `time.Time`: the instant and the zone offset. -/
structure Time where
  unixNano : Int
  offsetSec : Int
deriving DecidableEq, Repr

/-- The struct `UnderstandingData` (main.go 13-19); `*bool` is `Option Bool`. -/
structure UnderstandingData where
  Referrer : String
  UserAgent : String
  DarkMode : Option Bool
  URL : String
  Timestamp : String
deriving DecidableEq, Repr

/-- A value bound to a statement parameter or stored in a column. -/
inductive Value where
  | null
  | text (s : String)
  | bool (b : Bool)
  | time (t : Time)
deriving DecidableEq, Repr

/-- How `database/sql` binds a `*bool` argument: a nil pointer is SQL NULL,
any other pointer is the boolean it points to. -/
def Value.ofBoolPtr : Option Bool → Value
  | none => Value.null
  | some b => Value.bool b

/-- A column definition of `CREATE TABLE`: name, declared type, and whether it
carries `DEFAULT CURRENT_TIMESTAMP`. -/
structure Column where
  name : String
  type : String
  defaultCurrentTimestamp : Bool
deriving DecidableEq, Repr

/-- A stored row: one value per column of its table, keyed by column name. -/
abbrev Row := List (String × Value)

/-- A table: its schema and its rows in insertion order. -/
structure Table where
  columns : List Column
  rows : List Row
deriving DecidableEq, Repr

/-- The contents of the database file: tables by name. -/
abbrev Store := List (String × Table)

/-- The two statement forms the program issues. -/
inductive Stmt where
  | createTableIfNotExists (table : String) (columns : List Column)
  | insertInto (table : String) (columns : List String)
deriving DecidableEq, Repr

/-! ## The relational store -/

/-- Replace the table called `name` (its first entry), leaving every other table. -/
def Store.setTable : Store → String → Table → Store
  | [], _, _ => []
  | (n, t) :: rest, name, new =>
    if n = name then (n, new) :: rest else (n, t) :: Store.setTable rest name new

/-- The row an `INSERT` with named columns builds: a named column takes its
bound argument, any other column its default (`CURRENT_TIMESTAMP` or NULL). -/
def newRow (t : Table) (cols : List String) (args : List Value) (dbNow : Time) : Row :=
  t.columns.map fun c =>
    (c.name,
      match (cols.zip args).lookup c.name with
      | some v => v
      | none => if c.defaultCurrentTimestamp then Value.time dbNow else Value.null)

/-- The first named column that the table does not have. -/
def missingColumn (t : Table) (cols : List String) : Option String :=
  cols.find? fun c => !(t.columns.any fun col => col.name == c)

/-- Meaning of one statement on the store.  A failing statement leaves the
store as it was (the caller keeps the old store on `error`). -/
def Store.exec (st : Store) (dbNow : Time) : Stmt → List Value → Except String Store
  | Stmt.createTableIfNotExists name columns, _ =>
    match st.lookup name with
    | some _ => Except.ok st
    | none => Except.ok (st ++ [(name, { columns := columns, rows := [] })])
  | Stmt.insertInto name cols, args =>
    match st.lookup name with
    | none => Except.error ("no such table: " ++ name)
    | some t =>
      if cols.length ≠ args.length then
        Except.error "wrong number of bound values"
      else
        match missingColumn t cols with
        | some c => Except.error ("table " ++ name ++ " has no column named " ++ c)
        | none =>
          Except.ok (st.setTable name
            { columns := t.columns, rows := t.rows ++ [newRow t cols args dbNow] })

/-! ## The environment of one call -/

/-- Results of the library calls and of the driver, as seen by one call of
`initDB` or of `understandingHandler`. -/
structure World where
  /-- The result of `json.NewDecoder(r.Body).Decode(&data)` on a body. -/
  jsonDecode : String → Except String UnderstandingData
  /-- The result of `time.Parse(layout, value)`. -/
  timeParse : String → String → Except String Time
  /-- The reading of `time.Now()`. -/
  now : Time
  /-- An error raised by `sql.Open`, if any. -/
  openFault : Option String
  /-- An error raised by the driver on `db.Exec` before the statement runs, if any. -/
  execFault : Option String
  /-- The value of `CURRENT_TIMESTAMP` inside the store. -/
  dbNow : Time

/-- The handle `*sql.DB`. -/
structure Handle where
  driverName : String
  dataSourceName : String
deriving DecidableEq, Repr

/-- Program state: the global `db` (nil before `initDB`) and the contents of
the file `./understanding.db`. -/
structure State where
  db : Option Handle
  store : Store
deriving DecidableEq, Repr

/-- The call `sql.Open(driverName, dataSourceName)`. -/
def sqlOpen (W : World) (driverName dataSourceName : String) : Except String Handle :=
  match W.openFault with
  | some err => Except.error err
  | none => Except.ok { driverName := driverName, dataSourceName := dataSourceName }

/-- The call `db.Exec(query, args...)` on a non-nil handle. -/
def dbExec (W : World) (st : Store) (query : Stmt) (args : List Value) : Except String Store :=
  match W.execFault with
  | some err => Except.error err
  | none => st.exec W.dbNow query args

/-! ## initDB (main.go 23-44) -/

/-- The column list of `createTableSQL` (main.go 33-39). -/
def understandingColumns : List Column :=
  [ { name := "ip_address", type := "TEXT", defaultCurrentTimestamp := false },
    { name := "referrer", type := "TEXT", defaultCurrentTimestamp := false },
    { name := "user_agent", type := "TEXT", defaultCurrentTimestamp := false },
    { name := "dark_mode", type := "BOOLEAN", defaultCurrentTimestamp := false },
    { name := "url", type := "TEXT", defaultCurrentTimestamp := false },
    { name := "timestamp", type := "DATETIME", defaultCurrentTimestamp := false },
    { name := "created_at", type := "DATETIME", defaultCurrentTimestamp := true } ]

/-- The statement `createTableSQL` (main.go 31-40). -/
def createTableSQL : Stmt :=
  Stmt.createTableIfNotExists "understanding_data" understandingColumns

/-- The function `initDB`: the new state and the returned error (`none` is nil). -/
def initDB (W : World) (s : State) : State × Option String :=
  match sqlOpen W "sqlite3" "./understanding.db" with
  | Except.error err => ({ s with db := none }, some err)
  | Except.ok h =>
    match dbExec W s.store createTableSQL [] with
    | Except.error err => ({ s with db := some h }, some err)
    | Except.ok st => ({ db := some h, store := st }, none)

/-! ## understandingHandler (main.go 46-96) -/

/-- The part of `*http.Request` the handler reads. -/
structure Request where
  Method : String
  Header : List (String × List String)
  RemoteAddr : String
  Body : String
deriving DecidableEq, Repr

/-- The bytes allowed in a header field name (`validHeaderFieldByte` of
`net/textproto`): letters, digits and the token punctuation; codes 39 and 96
are the apostrophe and the grave accent. -/
def validHeaderFieldByte (c : Char) : Bool :=
  c.isAlphanum || "!#$%&*+-.^_|~".toList.contains c || c.toNat == 39 || c.toNat == 96

/-- The case rule of the canonical form: upper case for the first letter and
for a letter after a hyphen, lower case for every other letter. -/
def canonicalChars : Bool → List Char → List Char
  | _, [] => []
  | upper, c :: rest =>
    let c1 :=
      if upper && c.isLower then c.toUpper
      else if !upper && c.isUpper then c.toLower
      else c
    c1 :: canonicalChars (c1 == '-') rest

/-- The function `textproto.CanonicalMIMEHeaderKey`: a key with a byte that
is not allowed in a field name is returned as it is, any other key is put in
canonical case. -/
def CanonicalMIMEHeaderKey (s : String) : String :=
  if s.toList.all validHeaderFieldByte then String.mk (canonicalChars true s.toList) else s

/-- The method `Header.Get`: the key is put in canonical form, then the map is
read; the result is the first value under that key, or the empty string.  The
map of a served request holds every received header under its canonical name,
so a header sent as `X-Real-IP` is found under `X-Real-Ip`. -/
def Header.Get (h : List (String × List String)) (key : String) : String :=
  match h.lookup (CanonicalMIMEHeaderKey key) with
  | some (v :: _) => v
  | _ => ""

/-- The state of an `http.ResponseWriter`. -/
structure ResponseWriter where
  wroteHeader : Bool
  status : Nat
  body : String
deriving DecidableEq, Repr

/-- The writer the server hands to a handler: nothing written yet. -/
def ResponseWriter.fresh : ResponseWriter :=
  { wroteHeader := false, status := 0, body := "" }

/-- The method `WriteHeader`: the first call fixes the status, later calls are ignored. -/
def ResponseWriter.WriteHeader (w : ResponseWriter) (code : Nat) : ResponseWriter :=
  if w.wroteHeader then w else { w with wroteHeader := true, status := code }

/-- The method `Write`: sends status 200 first if no header was written yet. -/
def ResponseWriter.Write (w : ResponseWriter) (data : String) : ResponseWriter :=
  let w1 := if w.wroteHeader then w else w.WriteHeader 200
  { w1 with body := w1.body ++ data }

/-- A call the handler makes, other than to the response writer. -/
inductive Event where
  /-- The call `log.Printf(format, args...)`. -/
  | logPrintf (format : String) (args : List String)
  /-- The call `json.NewDecoder(r.Body).Decode(&data)`, which reads the body. -/
  | decodeBody
  /-- The call `db.Exec(query, args...)`. -/
  | dbExec (query : Stmt) (args : List Value)
deriving DecidableEq, Repr

/-- The constant `http.MethodPost`. -/
def MethodPost : String := "POST"

/-- The constant `http.StatusOK`. -/
def StatusOK : Nat := 200

/-- The layout `time.RFC3339`. -/
def RFC3339 : String := "2006-01-02T15:04:05Z07:00"

/-- The statement `insertSQL` (main.go 85-87). -/
def insertSQL : Stmt :=
  Stmt.insertInto "understanding_data"
    ["ip_address", "referrer", "user_agent", "dark_mode", "url", "timestamp"]

/-- Lines 58-62: the `X-Real-IP` header, or `RemoteAddr` when it is empty. -/
def clientIP (r : Request) : String :=
  let ipAddress := Header.Get r.Header "X-Real-IP"
  if ipAddress = "" then r.RemoteAddr else ipAddress

/-- Lines 71-82: the timestamp to store, and the log call made on the way. -/
def normalizeTimestamp (W : World) (data : UnderstandingData) : Time × List Event :=
  if data.Timestamp ≠ "" then
    match W.timeParse RFC3339 data.Timestamp with
    | Except.ok timestamp => (timestamp, [])
    | Except.error err => (W.now, [Event.logPrintf "Error parsing timestamp: %v" [err]])
  else
    (W.now, [])

/-- The arguments of the insert at line 89. -/
def insertArgs (ipAddress : String) (data : UnderstandingData) (timestamp : Time) : List Value :=
  [Value.text ipAddress, Value.text data.Referrer, Value.text data.UserAgent,
   Value.ofBoolPtr data.DarkMode, Value.text data.URL, Value.time timestamp]

/-- What a run of the handler body leaves behind. -/
structure Run where
  state : State
  trace : List Event
  /-- The body ended in a run-time panic (`db.Exec` on a nil `db`). -/
  panicked : Bool
deriving DecidableEq, Repr

/-- Lines 53-95: the body of the handler, up to its return. -/
def handlerBody (W : World) (r : Request) (s : State) : Run :=
  if r.Method ≠ MethodPost then
    { state := s, trace := [Event.logPrintf "Invalid method: %s" [r.Method]], panicked := false }
  else
    let ipAddress := clientIP r
    match W.jsonDecode r.Body with
    | Except.error err =>
      { state := s,
        trace := [Event.decodeBody, Event.logPrintf "Error parsing JSON: %v" [err]],
        panicked := false }
    | Except.ok data =>
      let ts := normalizeTimestamp W data
      let args := insertArgs ipAddress data ts.1
      let called := [Event.decodeBody] ++ ts.2 ++ [Event.dbExec insertSQL args]
      match s.db with
      | none => { state := s, trace := called, panicked := true }
      | some _ =>
        match dbExec W s.store insertSQL args with
        | Except.error err =>
          { state := s,
            trace := called ++ [Event.logPrintf "Error inserting data: %v" [err]],
            panicked := false }
        | Except.ok st =>
          { state := { s with store := st },
            trace := called ++
              [Event.logPrintf "Stored understanding data from IP: %s, URL: %s"
                [ipAddress, data.URL]],
            panicked := false }

/-- The result of one call of the handler. -/
structure Outcome where
  w : ResponseWriter
  state : State
  trace : List Event
  panicked : Bool
deriving DecidableEq, Repr

/-- The function `understandingHandler`: the body runs, then the deferred
function of lines 48-51 writes the response, on every way out of the body. -/
def understandingHandler (W : World) (w : ResponseWriter) (r : Request) (s : State) : Outcome :=
  let run := handlerBody W r s
  let w1 := w.WriteHeader StatusOK
  let w2 := w1.Write "OK"
  { w := w2, state := run.state, trace := run.trace, panicked := run.panicked }

/-- The `db.Exec` calls of a trace, in order. -/
def execCalls : List Event → List (Stmt × List Value)
  | [] => []
  | Event.dbExec q a :: rest => (q, a) :: execCalls rest
  | _ :: rest => execCalls rest

/-- The `log.Printf` calls of a trace, in order. -/
def logCalls : List Event → List (String × List String)
  | [] => []
  | Event.logPrintf f a :: rest => (f, a) :: logCalls rest
  | _ :: rest => logCalls rest

/-! ## A concrete environment -/

/-- The body of the example request. -/
def exampleBody : String :=
  "\x7b\"referrer\":\"https://a.com\",\"user_agent\":\"UA1\",\"dark_mode\":true,\"url\":\"/x\",\"timestamp\":\"2024-01-01T00:00:00Z\"\x7d"

/-- The struct the example body decodes to. -/
def exampleData : UnderstandingData :=
  { Referrer := "https://a.com", UserAgent := "UA1", DarkMode := some true,
    URL := "/x", Timestamp := "2024-01-01T00:00:00Z" }

/-- The instant 2024-01-01T00:00:00Z. -/
def exampleTime : Time := { unixNano := 1704067200000000000, offsetSec := 0 }

/-- The library results on the inputs used in the examples below, as finite
tables: every other body is reported undecodable, every other string
unparseable.  Two entries follow the documentation of `encoding/json`: the
JSON value `null` leaves the struct as it is and is no error, and `Decode`
reads one JSON value and leaves the bytes after it unread. -/
def exampleWorld : World where
  jsonDecode := fun body =>
    if body = "null" then
      Except.ok { Referrer := "", UserAgent := "", DarkMode := none, URL := "", Timestamp := "" }
    else if body = "\x7b\"url\":\"/a\"\x7d garbage" then
      Except.ok { Referrer := "", UserAgent := "", DarkMode := none, URL := "/a", Timestamp := "" }
    else if body = exampleBody then
      Except.ok { Referrer := "https://a.com", UserAgent := "UA1", DarkMode := some true,
                  URL := "/x", Timestamp := "2024-01-01T00:00:00Z" }
    else if body = "\x7b\"url\":\"/y\",\"timestamp\":\"yesterday\"\x7d" then
      Except.ok { Referrer := "", UserAgent := "", DarkMode := none,
                  URL := "/y", Timestamp := "yesterday" }
    else if body = "\x7b\"dark_mode\":false\x7d" then
      Except.ok { Referrer := "", UserAgent := "", DarkMode := some false,
                  URL := "", Timestamp := "" }
    else Except.error "unexpected end of JSON input"
  timeParse := fun _ value =>
    if value = "2024-01-01T00:00:00Z" then Except.ok exampleTime
    else Except.error "cannot parse"
  now := { unixNano := 1762164000000000000, offsetSec := 3600 }
  openFault := none
  execFault := none
  dbNow := { unixNano := 1762164000000000000, offsetSec := 0 }

/-- The example request: the example body posted through a proxy. -/
def exampleRequest : Request :=
  { Method := "POST", Header := [("X-Real-Ip", ["1.2.3.4"])],
    RemoteAddr := "10.0.0.7:51234", Body := exampleBody }

/-- The state before the first `initDB`: no handle, an empty database file. -/
def State.initial : State := { db := none, store := [] }

/-- The state in which the server accepts requests: `initDB` has run on the
empty file without error. -/
def State.serving : State := (initDB exampleWorld State.initial).1

/-- A POST whose body stops in the middle of an object. -/
def truncatedRequest : Request :=
  { Method := "POST", Header := [], RemoteAddr := "10.0.0.7:51234", Body := "\x7b\"url\":" }

/-- A POST whose body is the JSON value `null`, which is not an object. -/
def nullRequest : Request :=
  { Method := "POST", Header := [], RemoteAddr := "10.0.0.7:51234", Body := "null" }

/-- A POST whose body is an object followed by bytes that are not JSON. -/
def garbageRequest : Request :=
  { Method := "POST", Header := [], RemoteAddr := "10.0.0.7:51234",
    Body := "\x7b\"url\":\"/a\"\x7d garbage" }

/-- A GET with the example body and the proxy header. -/
def getRequest : Request :=
  { Method := "GET", Header := [("X-Real-Ip", ["1.2.3.4"])],
    RemoteAddr := "10.0.0.7:51234", Body := exampleBody }

/-- A direct POST (no proxy header) whose timestamp is not RFC 3339. -/
def fallbackRequest : Request :=
  { Method := "POST", Header := [], RemoteAddr := "10.0.0.7:51234",
    Body := "\x7b\"url\":\"/y\",\"timestamp\":\"yesterday\"\x7d" }

/-- A POST that only reports `dark_mode: false`. -/
def darkRequest : Request :=
  { Method := "POST", Header := [("X-Real-Ip", [""])], RemoteAddr := "[::1]:8000",
    Body := "\x7b\"dark_mode\":false\x7d" }

/-- The example environment, with a driver that refuses the statement. -/
def faultyWorld : World := { exampleWorld with execFault := some "database is locked" }

/-- A database file written by an older deployment: the table exists with
another schema and holds a row. -/
def legacyState : State :=
  { db := none,
    store := [("understanding_data",
      { columns := [{ name := "ip_address", type := "TEXT", defaultCurrentTimestamp := false }],
        rows := [[("ip_address", Value.text "198.51.100.9")]] })] }

/-- The store `st2` is `st1` with `row` appended to the table `name`: that
table keeps its schema and its earlier rows, every other table is as it was,
and no table is added or removed. -/
def Store.Appended (st1 st2 : Store) (name : String) (row : Row) : Prop :=
  (∃ t, st1.lookup name = some t ∧
    st2.lookup name = some { columns := t.columns, rows := t.rows ++ [row] }) ∧
  (∀ n, n ≠ name → st2.lookup n = st1.lookup n) ∧
  st2.map Prod.fst = st1.map Prod.fst

/-! ## Lemmas on the store -/

theorem lookup_setTable_self (st : Store) (name : String) (t new : Table)
    (h : st.lookup name = some t) : (st.setTable name new).lookup name = some new := by
  induction st with
  | nil => simp at h
  | cons p rest ih =>
    obtain ⟨n, t0⟩ := p
    by_cases hn : n = name
    · subst hn; simp [Store.setTable, List.lookup_cons]
    · have hne : (name == n) = false := by simpa using fun h => hn h.symm
      simp only [List.lookup_cons, hne] at h
      simp [Store.setTable, hn, List.lookup_cons, hne, ih h]

theorem lookup_setTable_other (st : Store) (name n : String) (new : Table) (hn : n ≠ name) :
    (st.setTable name new).lookup n = st.lookup n := by
  induction st with
  | nil => rfl
  | cons p rest ih =>
    obtain ⟨m, t0⟩ := p
    by_cases hm : m = name
    · subst hm
      have hne : (n == m) = false := by simpa using hn
      simp [Store.setTable, List.lookup_cons, hne]
    · simp only [Store.setTable, hm, if_false, List.lookup_cons, ih]

theorem map_fst_setTable (st : Store) (name : String) (new : Table) :
    (st.setTable name new).map Prod.fst = st.map Prod.fst := by
  induction st with
  | nil => rfl
  | cons p rest ih =>
    obtain ⟨m, t0⟩ := p
    by_cases hm : m = name
    · simp [Store.setTable, hm]
    · simp [Store.setTable, hm, ih]

theorem lookup_append_new (st : Store) (name : String) (t : Table)
    (h : st.lookup name = none) : (st ++ [(name, t)]).lookup name = some t := by
  induction st with
  | nil => simp [List.lookup_cons]
  | cons p rest ih =>
    obtain ⟨m, t0⟩ := p
    simp only [List.lookup_cons] at h
    split at h
    · simp at h
    · next hne => simp [List.lookup_cons, hne, ih h]

/-- The value a column named in the statement gets in the new row. -/
theorem lookup_newRow (t : Table) (cols : List String) (args : List Value) (dbNow : Time)
    (c : String) (v : Value)
    (hc : (t.columns.any fun col => col.name == c) = true)
    (hv : (cols.zip args).lookup c = some v) :
    (newRow t cols args dbNow).lookup c = some v := by
  unfold newRow
  generalize t.columns = cs at hc
  induction cs with
  | nil => simp at hc
  | cons col rest ih =>
    by_cases hn : col.name = c
    · subst hn
      simp [List.lookup_cons, hv]
    · have hne : (c == col.name) = false := by simpa using fun h => hn h.symm
      have hrest : (rest.any fun col => col.name == c) = true := by
        simpa [List.any_cons, hn] using hc
      simp [List.lookup_cons, hne, ih hrest]

/-- When the insert statement succeeds, the store it returns is the old one
with the new row appended to the named table. -/
theorem exec_insert_ok (st st2 : Store) (dbNow : Time) (name : String) (cols : List String)
    (args : List Value) (h : st.exec dbNow (Stmt.insertInto name cols) args = Except.ok st2) :
    ∃ t, st.lookup name = some t ∧ missingColumn t cols = none ∧
      Store.Appended st st2 name (newRow t cols args dbNow) := by
  simp only [Store.exec] at h
  split at h
  · simp at h
  · next t ht =>
    split at h
    · simp at h
    · split at h
      · simp at h
      · next hmiss =>
        injection h with h
        subst h
        exact ⟨t, ht, hmiss, ⟨t, ht, lookup_setTable_self st name t _ ht⟩,
          fun n hn => lookup_setTable_other st name n _ hn, map_fst_setTable st name _⟩

/-- A table that misses none of the named columns has each of them. -/
theorem hasColumn_of_missing_none (t : Table) (cols : List String) (c : String)
    (h : missingColumn t cols = none) (hc : c ∈ cols) :
    (t.columns.any fun col => col.name == c) = true := by
  unfold missingColumn at h
  have := (List.find?_eq_none.mp h) c hc
  simpa using this

/-! ## Lemmas on traces -/

theorem execCalls_append (a b : List Event) : execCalls (a ++ b) = execCalls a ++ execCalls b := by
  induction a with
  | nil => rfl
  | cons e rest ih => cases e <;> simp [execCalls, ih]

theorem logCalls_append (a b : List Event) : logCalls (a ++ b) = logCalls a ++ logCalls b := by
  induction a with
  | nil => rfl
  | cons e rest ih => cases e <;> simp [logCalls, ih]

/-- The response of the deferred function on a writer nothing was written to. -/
theorem deferred_on_fresh :
    (ResponseWriter.fresh.WriteHeader StatusOK).Write "OK"
      = { wroteHeader := true, status := 200, body := "OK" } := by
  decide

/-- The timestamp step logs nothing or exactly one timestamp error. -/
theorem normalizeTimestamp_log (W : World) (data : UnderstandingData) :
    (normalizeTimestamp W data).2 = [] ∨
      ∃ err, (normalizeTimestamp W data).2 = [Event.logPrintf "Error parsing timestamp: %v" [err]] := by
  unfold normalizeTimestamp
  split
  · split
    · exact Or.inl rfl
    · exact Or.inr ⟨_, rfl⟩
  · exact Or.inl rfl

theorem normalizeTimestamp_execCalls (W : World) (data : UnderstandingData) :
    execCalls (normalizeTimestamp W data).2 = [] := by
  rcases normalizeTimestamp_log W data with h | ⟨err, h⟩ <;> rw [h] <;> rfl

/-- A client timestamp that parses is the one used. -/
theorem normalizeTimestamp_parsed (W : World) (data : UnderstandingData) (t : Time)
    (hne : data.Timestamp ≠ "") (hp : W.timeParse RFC3339 data.Timestamp = Except.ok t) :
    normalizeTimestamp W data = (t, []) := by
  simp [normalizeTimestamp, hne, hp]

/-- Without a client timestamp that parses, the clock reading is used. -/
theorem normalizeTimestamp_fallback (W : World) (data : UnderstandingData)
    (h : data.Timestamp = "" ∨ ∃ err, W.timeParse RFC3339 data.Timestamp = Except.error err) :
    (normalizeTimestamp W data).1 = W.now := by
  unfold normalizeTimestamp
  split
  · rcases h with h | ⟨err, h⟩
    · contradiction
    · rw [h]
  · rfl

/-- The body of the handler on a request that is not a POST. -/
theorem handlerBody_not_post (W : World) (r : Request) (s : State) (hm : r.Method ≠ MethodPost) :
    handlerBody W r s
      = { state := s, trace := [Event.logPrintf "Invalid method: %s" [r.Method]],
          panicked := false } := by
  simp [handlerBody, hm]

/-- The body of the handler on a POST whose body does not decode. -/
theorem handlerBody_decode_error (W : World) (r : Request) (s : State) (err : String)
    (hm : r.Method = MethodPost) (hd : W.jsonDecode r.Body = Except.error err) :
    handlerBody W r s
      = { state := s,
          trace := [Event.decodeBody, Event.logPrintf "Error parsing JSON: %v" [err]],
          panicked := false } := by
  simp [handlerBody, hm, hd]

/-- On a POST whose body decodes, `db.Exec` is called exactly once, with the
insert statement and the six values of line 89. -/
theorem handlerBody_execCalls (W : World) (r : Request) (s : State) (data : UnderstandingData)
    (hm : r.Method = MethodPost) (hd : W.jsonDecode r.Body = Except.ok data) :
    execCalls (handlerBody W r s).trace
      = [(insertSQL, insertArgs (clientIP r) data (normalizeTimestamp W data).1)] := by
  simp only [handlerBody, hm, hd, ne_eq, not_true_eq_false, if_false]
  split
  · simp [execCalls_append, execCalls, normalizeTimestamp_execCalls]
  · split <;> simp [execCalls_append, execCalls, normalizeTimestamp_execCalls]

/-- On a POST whose body decodes and whose insert succeeds, the new store is
the one the statement produced and the handle is untouched. -/
theorem handlerBody_insert_ok (W : World) (r : Request) (s : State) (data : UnderstandingData)
    (h : Handle) (st : Store)
    (hm : r.Method = MethodPost) (hd : W.jsonDecode r.Body = Except.ok data)
    (hdb : s.db = some h)
    (hex : dbExec W s.store insertSQL
      (insertArgs (clientIP r) data (normalizeTimestamp W data).1) = Except.ok st) :
    handlerBody W r s
      = { state := { db := s.db, store := st },
          trace := [Event.decodeBody] ++ (normalizeTimestamp W data).2 ++
            [Event.dbExec insertSQL (insertArgs (clientIP r) data (normalizeTimestamp W data).1)] ++
            [Event.logPrintf "Stored understanding data from IP: %s, URL: %s"
              [clientIP r, data.URL]],
          panicked := false } := by
  simp [handlerBody, hm, hd, hdb, hex]

/-- On a POST whose body decodes and whose insert fails, the state is kept
and the error is logged. -/
theorem handlerBody_insert_error (W : World) (r : Request) (s : State) (data : UnderstandingData)
    (h : Handle) (err : String)
    (hm : r.Method = MethodPost) (hd : W.jsonDecode r.Body = Except.ok data)
    (hdb : s.db = some h)
    (hex : dbExec W s.store insertSQL
      (insertArgs (clientIP r) data (normalizeTimestamp W data).1) = Except.error err) :
    handlerBody W r s
      = { state := s,
          trace := [Event.decodeBody] ++ (normalizeTimestamp W data).2 ++
            [Event.dbExec insertSQL (insertArgs (clientIP r) data (normalizeTimestamp W data).1)] ++
            [Event.logPrintf "Error inserting data: %v" [err]],
          panicked := false } := by
  simp [handlerBody, hm, hd, hdb, hex]

/-- A successful `db.Exec` ran the statement on the store. -/
theorem dbExec_ok (W : World) (st st2 : Store) (q : Stmt) (args : List Value)
    (h : dbExec W st q args = Except.ok st2) : st.exec W.dbNow q args = Except.ok st2 := by
  unfold dbExec at h
  split at h
  · simp at h
  · exact h

/-- The row a successful insert of the handler leaves in the store. -/
theorem stored_row (W : World) (w : ResponseWriter) (r : Request) (s : State)
    (data : UnderstandingData) (h : Handle) (st : Store)
    (hm : r.Method = MethodPost) (hd : W.jsonDecode r.Body = Except.ok data)
    (hdb : s.db = some h)
    (hex : dbExec W s.store insertSQL
      (insertArgs (clientIP r) data (normalizeTimestamp W data).1) = Except.ok st) :
    (understandingHandler W w r s).state = { db := s.db, store := st } ∧
    ∃ row, Store.Appended s.store st "understanding_data" row ∧
      row.lookup "ip_address" = some (Value.text (clientIP r)) ∧
      row.lookup "referrer" = some (Value.text data.Referrer) ∧
      row.lookup "user_agent" = some (Value.text data.UserAgent) ∧
      row.lookup "dark_mode" = some (Value.ofBoolPtr data.DarkMode) ∧
      row.lookup "url" = some (Value.text data.URL) ∧
      row.lookup "timestamp" = some (Value.time (normalizeTimestamp W data).1) := by
  refine ⟨?_, ?_⟩
  · simp [understandingHandler, handlerBody_insert_ok W r s data h st hm hd hdb hex]
  · obtain ⟨t, _, hmiss, happ⟩ := exec_insert_ok _ _ _ _ _ _ (dbExec_ok _ _ _ _ _ hex)
    refine ⟨_, happ, ?_, ?_, ?_, ?_, ?_, ?_⟩ <;>
      exact lookup_newRow t _ _ _ _ _
        (hasColumn_of_missing_none t _ _ hmiss (by decide)) rfl

/-! ## The claims -/

/-- C1: for every request handed to `understandingHandler` (any method, headers
and body, any decoder and driver behaviour, any program state, a nil `db`
included) the response written is status 200 with body exactly "OK". -/
theorem C1_response_always_200_OK (W : World) (r : Request) (s : State) :
    (understandingHandler W ResponseWriter.fresh r s).w
      = { wroteHeader := true, status := 200, body := "OK" } :=
  deferred_on_fresh

/-- C2 (amended): on a POST whose body fails to decode, that is, on which
`Decode` returns an error, the handler makes no call to `db.Exec`, leaves the
program state (so the store) as it was, logs the JSON error only, and the
response is still 200 "OK".  The test is the error of `Decode` and nothing
else: a body that is not a JSON object but on which `Decode` returns no error
is processed like any other. -/
theorem C2_undecodable_body_no_insert (W : World) (r : Request) (s : State) (err : String)
    (hm : r.Method = MethodPost) (hd : W.jsonDecode r.Body = Except.error err) :
    execCalls (understandingHandler W ResponseWriter.fresh r s).trace = [] ∧
    (understandingHandler W ResponseWriter.fresh r s).state = s ∧
    (understandingHandler W ResponseWriter.fresh r s).trace
      = [Event.decodeBody, Event.logPrintf "Error parsing JSON: %v" [err]] ∧
    (understandingHandler W ResponseWriter.fresh r s).w
      = { wroteHeader := true, status := 200, body := "OK" } := by
  simp [understandingHandler, handlerBody_decode_error W r s err hm hd, execCalls,
    deferred_on_fresh]

theorem C2_undecodable_body_no_insert_witness :
    truncatedRequest.Method = MethodPost ∧
    exampleWorld.jsonDecode truncatedRequest.Body = Except.error "unexpected end of JSON input" ∧
    execCalls (understandingHandler exampleWorld ResponseWriter.fresh truncatedRequest
      State.serving).trace = [] ∧
    (understandingHandler exampleWorld ResponseWriter.fresh truncatedRequest
      State.serving).state = State.serving :=
  ⟨by decide, rfl,
    (C2_undecodable_body_no_insert exampleWorld truncatedRequest State.serving _
      (by decide) rfl).1,
    (C2_undecodable_body_no_insert exampleWorld truncatedRequest State.serving _
      (by decide) rfl).2.1⟩

/-- Two bodies that are not a JSON object and still get a row.  The body
`null` is a JSON value that is not an object, and the body of `garbageRequest`
is not JSON as a whole; on both `Decode` returns no error, so the handler
calls `db.Exec` once and the table, empty before, holds a new row after. -/
theorem C2_counterexample_null_body :
    nullRequest.Method = MethodPost ∧ nullRequest.Body = "null" ∧
    execCalls (understandingHandler exampleWorld ResponseWriter.fresh nullRequest
        State.serving).trace
      = [(insertSQL,
          [Value.text "10.0.0.7:51234", Value.text "", Value.text "", Value.null,
           Value.text "", Value.time exampleWorld.now])] ∧
    State.serving.store
      = [("understanding_data", { columns := understandingColumns, rows := [] })] ∧
    (understandingHandler exampleWorld ResponseWriter.fresh nullRequest
        State.serving).state.store
      = [("understanding_data",
          { columns := understandingColumns,
            rows := [[("ip_address", Value.text "10.0.0.7:51234"),
                      ("referrer", Value.text ""),
                      ("user_agent", Value.text ""),
                      ("dark_mode", Value.null),
                      ("url", Value.text ""),
                      ("timestamp", Value.time exampleWorld.now),
                      ("created_at", Value.time exampleWorld.dbNow)]] })] ∧
    garbageRequest.Method = MethodPost ∧
    execCalls (understandingHandler exampleWorld ResponseWriter.fresh garbageRequest
        State.serving).trace
      = [(insertSQL,
          [Value.text "10.0.0.7:51234", Value.text "", Value.text "", Value.null,
           Value.text "/a", Value.time exampleWorld.now])] ∧
    (understandingHandler exampleWorld ResponseWriter.fresh garbageRequest
        State.serving).state.store ≠ State.serving.store := by
  decide

/-- C3: on a POST whose body decodes and whose `timestamp` is a non-empty
string that parses as RFC 3339, the handler calls `db.Exec` once and the
timestamp it passes is the parsed value, whatever the clock reads. -/
theorem C3_parsed_timestamp_is_passed (W : World) (r : Request) (s : State)
    (data : UnderstandingData) (t : Time)
    (hm : r.Method = MethodPost) (hd : W.jsonDecode r.Body = Except.ok data)
    (hne : data.Timestamp ≠ "")
    (hp : W.timeParse RFC3339 data.Timestamp = Except.ok t) (clock : Time) :
    execCalls (understandingHandler { W with now := clock } ResponseWriter.fresh r s).trace
      = [(insertSQL,
          [Value.text (clientIP r), Value.text data.Referrer, Value.text data.UserAgent,
           Value.ofBoolPtr data.DarkMode, Value.text data.URL, Value.time t])] := by
  have h := handlerBody_execCalls { W with now := clock } r s data hm hd
  rw [normalizeTimestamp_parsed { W with now := clock } data t hne hp] at h
  exact h

theorem C3_parsed_timestamp_is_passed_witness :
    exampleRequest.Method = MethodPost ∧
    execCalls (understandingHandler { exampleWorld with now := { unixNano := 0, offsetSec := 0 } }
        ResponseWriter.fresh exampleRequest State.serving).trace
      = [(insertSQL,
          [Value.text "1.2.3.4", Value.text "https://a.com", Value.text "UA1",
           Value.bool true, Value.text "/x", Value.time exampleTime])] :=
  ⟨by decide,
    C3_parsed_timestamp_is_passed exampleWorld exampleRequest State.serving
      { Referrer := "https://a.com", UserAgent := "UA1", DarkMode := some true,
        URL := "/x", Timestamp := "2024-01-01T00:00:00Z" } exampleTime
      (by decide) rfl (by decide) rfl { unixNano := 0, offsetSec := 0 }⟩

/-- C4: on a POST whose body decodes and whose `timestamp` is empty (or absent,
which decodes to the empty string) or does not parse as RFC 3339, the handler
still calls `db.Exec` once, and the timestamp it passes is the reading of the
server clock: a date-time, not NULL and not the client's string.  When that
insert succeeds the new row carries the clock reading. -/
theorem C4_clock_fallback (W : World) (r : Request) (s : State) (data : UnderstandingData)
    (hm : r.Method = MethodPost) (hd : W.jsonDecode r.Body = Except.ok data)
    (hts : data.Timestamp = "" ∨
      ∃ err, W.timeParse RFC3339 data.Timestamp = Except.error err) :
    execCalls (understandingHandler W ResponseWriter.fresh r s).trace
      = [(insertSQL,
          [Value.text (clientIP r), Value.text data.Referrer, Value.text data.UserAgent,
           Value.ofBoolPtr data.DarkMode, Value.text data.URL, Value.time W.now])] ∧
    Value.time W.now ≠ Value.null ∧
    Value.time W.now ≠ Value.text data.Timestamp ∧
    ∀ (h : Handle) (st : Store), s.db = some h →
      dbExec W s.store insertSQL
        [Value.text (clientIP r), Value.text data.Referrer, Value.text data.UserAgent,
         Value.ofBoolPtr data.DarkMode, Value.text data.URL, Value.time W.now] = Except.ok st →
      (understandingHandler W ResponseWriter.fresh r s).state.store = st ∧
      ∃ row, Store.Appended s.store st "understanding_data" row ∧
        row.lookup "timestamp" = some (Value.time W.now) := by
  have hnow := normalizeTimestamp_fallback W data hts
  refine ⟨?_, by simp, by simp, ?_⟩
  · have h := handlerBody_execCalls W r s data hm hd
    rw [hnow] at h
    exact h
  · intro h st hdb hex
    have hex2 : dbExec W s.store insertSQL
        (insertArgs (clientIP r) data (normalizeTimestamp W data).1) = Except.ok st := by
      rw [hnow]; exact hex
    obtain ⟨hst, row, happ, _, _, _, _, _, hrow⟩ :=
      stored_row W ResponseWriter.fresh r s data h st hm hd hdb hex2
    rw [hnow] at hrow
    exact ⟨by rw [hst], row, happ, hrow⟩

theorem C4_clock_fallback_witness :
    fallbackRequest.Method = MethodPost ∧
    exampleWorld.timeParse RFC3339 "yesterday" = Except.error "cannot parse" ∧
    execCalls (understandingHandler exampleWorld ResponseWriter.fresh fallbackRequest
        State.serving).trace
      = [(insertSQL,
          [Value.text "10.0.0.7:51234", Value.text "", Value.text "", Value.null,
           Value.text "/y", Value.time exampleWorld.now])] :=
  ⟨by decide, rfl,
    (C4_clock_fallback exampleWorld fallbackRequest State.serving
      { Referrer := "", UserAgent := "", DarkMode := none, URL := "/y", Timestamp := "yesterday" }
      (by decide) rfl (Or.inr ⟨"cannot parse", rfl⟩)).1⟩

/-- C6: on a POST whose body decodes, the `dark_mode` value passed to the
insert is NULL when the decoded field is nil (the key was absent), true when
it is true and false when it is false; NULL and false are different values. -/
theorem C6_dark_mode_tristate (W : World) (r : Request) (s : State) (data : UnderstandingData)
    (hm : r.Method = MethodPost) (hd : W.jsonDecode r.Body = Except.ok data) :
    execCalls (understandingHandler W ResponseWriter.fresh r s).trace
      = [(insertSQL,
          [Value.text (clientIP r), Value.text data.Referrer, Value.text data.UserAgent,
           (match data.DarkMode with
            | none => Value.null
            | some true => Value.bool true
            | some false => Value.bool false),
           Value.text data.URL, Value.time (normalizeTimestamp W data).1])] ∧
    Value.ofBoolPtr none ≠ Value.ofBoolPtr (some false) := by
  refine ⟨?_, by decide⟩
  have key : ∀ o : Option Bool, Value.ofBoolPtr o =
      (match o with
       | none => Value.null
       | some true => Value.bool true
       | some false => Value.bool false) := by
    intro o
    rcases o with _ | _ | _ <;> rfl
  have h := handlerBody_execCalls W r s data hm hd
  rw [show (understandingHandler W ResponseWriter.fresh r s).trace
      = (handlerBody W r s).trace from rfl, h, insertArgs, key]

theorem C6_dark_mode_tristate_witness :
    darkRequest.Method = MethodPost ∧
    execCalls (understandingHandler exampleWorld ResponseWriter.fresh darkRequest
        State.serving).trace
      = [(insertSQL,
          [Value.text "[::1]:8000", Value.text "", Value.text "", Value.bool false,
           Value.text "", Value.time exampleWorld.now])] :=
  ⟨by decide,
    (C6_dark_mode_tristate exampleWorld darkRequest State.serving
      { Referrer := "", UserAgent := "", DarkMode := some false, URL := "", Timestamp := "" }
      (by decide) rfl).1⟩

/-- C7: on a request whose method is not POST the handler reads no body, calls
neither the decoder nor `db.Exec`, and leaves the program state as it was;
whatever the headers, the body and the environment are, all it does is log the
invalid method and answer 200 "OK". -/
theorem C7_non_post_only_logs (W : World) (r : Request) (s : State)
    (hm : r.Method ≠ MethodPost) :
    understandingHandler W ResponseWriter.fresh r s
      = { w := { wroteHeader := true, status := 200, body := "OK" },
          state := s,
          trace := [Event.logPrintf "Invalid method: %s" [r.Method]],
          panicked := false } := by
  simp [understandingHandler, handlerBody_not_post W r s hm, deferred_on_fresh]

theorem C7_non_post_only_logs_witness :
    getRequest.Method ≠ MethodPost ∧
    understandingHandler exampleWorld ResponseWriter.fresh getRequest State.serving
      = { w := { wroteHeader := true, status := 200, body := "OK" },
          state := State.serving,
          trace := [Event.logPrintf "Invalid method: %s" ["GET"]],
          panicked := false } :=
  ⟨by decide, C7_non_post_only_logs exampleWorld getRequest State.serving (by decide)⟩

/-- C9: on a POST whose body decodes and whose insert fails with a store
error, the handler has called `db.Exec` exactly once, has logged the insert
error, has not logged the success line, has left the program state as it was,
and the response is still 200 "OK". -/
theorem C9_failed_insert_logged_once (W : World) (r : Request) (s : State)
    (data : UnderstandingData) (h : Handle) (err : String)
    (hm : r.Method = MethodPost) (hd : W.jsonDecode r.Body = Except.ok data)
    (hdb : s.db = some h)
    (hex : dbExec W s.store insertSQL
      (insertArgs (clientIP r) data (normalizeTimestamp W data).1) = Except.error err) :
    execCalls (understandingHandler W ResponseWriter.fresh r s).trace
      = [(insertSQL, insertArgs (clientIP r) data (normalizeTimestamp W data).1)] ∧
    ("Error inserting data: %v", [err])
      ∈ logCalls (understandingHandler W ResponseWriter.fresh r s).trace ∧
    (∀ args, ("Stored understanding data from IP: %s, URL: %s", args)
      ∉ logCalls (understandingHandler W ResponseWriter.fresh r s).trace) ∧
    (understandingHandler W ResponseWriter.fresh r s).state = s ∧
    (understandingHandler W ResponseWriter.fresh r s).w
      = { wroteHeader := true, status := 200, body := "OK" } := by
  have hbody := handlerBody_insert_error W r s data h err hm hd hdb hex
  have hcalls := handlerBody_execCalls W r s data hm hd
  have htr : (understandingHandler W ResponseWriter.fresh r s).trace
      = (handlerBody W r s).trace := rfl
  refine ⟨by rw [htr]; exact hcalls, ?_, ?_, ?_, deferred_on_fresh⟩
  · rw [htr, hbody]
    simp [logCalls_append, logCalls]
  · intro args
    rw [htr, hbody]
    rcases normalizeTimestamp_log W data with hl | ⟨e, hl⟩ <;>
      simp [hl, logCalls_append, logCalls]
  · simp [understandingHandler, hbody]

theorem C9_failed_insert_logged_once_witness :
    exampleRequest.Method = MethodPost ∧
    dbExec faultyWorld State.serving.store insertSQL
      (insertArgs (clientIP exampleRequest) exampleData
        (normalizeTimestamp faultyWorld exampleData).1) = Except.error "database is locked" ∧
    logCalls (understandingHandler faultyWorld ResponseWriter.fresh exampleRequest
        State.serving).trace = [("Error inserting data: %v", ["database is locked"])] ∧
    (understandingHandler faultyWorld ResponseWriter.fresh exampleRequest
        State.serving).state = State.serving :=
  ⟨by decide, rfl, by decide,
    (C9_failed_insert_logged_once faultyWorld exampleRequest State.serving exampleData
      { driverName := "sqlite3", dataSourceName := "./understanding.db" }
      "database is locked" (by decide) rfl rfl rfl).2.2.2.1⟩

/-- C10: `initDB` is idempotent on the store.  On a store that already has a
table `understanding_data` (with whatever schema and rows) it leaves the whole
store as it was, even when the driver fails, and returns no error when the
driver raises none; a second run after a successful first run returns no error
and gives the same state as the first run alone. -/
theorem C10_initDB_idempotent (W1 W2 : World) (s : State)
    (ho1 : W1.openFault = none) (he1 : W1.execFault = none)
    (ho2 : W2.openFault = none) (he2 : W2.execFault = none) :
    (initDB W1 s).2 = none ∧
    initDB W2 (initDB W1 s).1 = ((initDB W1 s).1, none) ∧
    (∀ t, s.store.lookup "understanding_data" = some t →
      (initDB W1 s).1.store = s.store ∧
      (initDB W1 s).1.store.lookup "understanding_data" = some t) ∧
    (∀ (W : World) (t : Table), s.store.lookup "understanding_data" = some t →
      (initDB W s).1.store = s.store) := by
  have once : ∀ (W : World) (s0 : State) (t : Table), W.openFault = none →
      W.execFault = none → s0.store.lookup "understanding_data" = some t →
      initDB W s0 = (State.mk (some (Handle.mk "sqlite3" "./understanding.db")) s0.store,
                     none) := by
    intro W s0 t ho he ht
    simp [initDB, sqlOpen, dbExec, ho, he, Store.exec, createTableSQL, ht]
  refine ⟨?_, ?_, ?_, ?_⟩
  · cases hl : s.store.lookup "understanding_data" <;>
      simp [initDB, sqlOpen, dbExec, ho1, he1, Store.exec, createTableSQL, hl]
  · cases hl : s.store.lookup "understanding_data" with
    | some t =>
      rw [once W1 s t ho1 he1 hl]
      exact once W2 _ t ho2 he2 hl
    | none =>
      have h1 : initDB W1 s
          = (State.mk (some (Handle.mk "sqlite3" "./understanding.db"))
               (s.store ++ [("understanding_data", Table.mk understandingColumns [])]),
             none) := by
        simp [initDB, sqlOpen, dbExec, ho1, he1, Store.exec, createTableSQL, hl]
      rw [h1]
      exact once W2 _ _ ho2 he2 (lookup_append_new s.store _ _ hl)
  · intro t ht
    rw [once W1 s t ho1 he1 ht]
    exact ⟨rfl, ht⟩
  · intro W t ht
    cases ho : W.openFault <;> cases he : W.execFault <;>
      simp [initDB, sqlOpen, dbExec, ho, he, Store.exec, createTableSQL, ht]

theorem C10_initDB_idempotent_witness :
    exampleWorld.openFault = none ∧ exampleWorld.execFault = none ∧
    (initDB exampleWorld legacyState).2 = none ∧
    (initDB exampleWorld legacyState).1.store = legacyState.store ∧
    initDB exampleWorld (initDB exampleWorld State.initial).1
      = ((initDB exampleWorld State.initial).1, none) :=
  ⟨rfl, rfl,
    (C10_initDB_idempotent exampleWorld exampleWorld legacyState rfl rfl rfl rfl).1,
    ((C10_initDB_idempotent exampleWorld exampleWorld legacyState rfl rfl rfl rfl).2.2.1
      _ rfl).1,
    (C10_initDB_idempotent exampleWorld exampleWorld State.initial rfl rfl rfl rfl).2.1⟩

end Understanding
